import Mathlib

/-!
Verification of the WinGIF capture-and-encode core.

This file is a shallow embedding of the parts of the WinGIF sources that the
verified properties talk about:

* `crates/app/src/state.rs` — the session state machine (`AppState`,
  `RecordingSession`, `StateMachine`);
* `crates/capture_wgc/src/frame.rs` — frame data, BGRA→RGBA conversion,
  cropping, and the frame processor's path generation;
* `crates/capture_wgc/src/capture.rs` — the copy-region computation of
  `CaptureController::process_frame`;
* `crates/export/src/gif.rs` — the `export_from_pngs` pipeline (empty-input
  check, collector-stage frame submission with timestamps);
* `crates/app/src/main.rs` / `main_egui.rs` — the export caller's fps
  derivation, export-result handling, and the capture loop's pacing logic.

Modelling conventions: Rust `u32`/`usize`/`u8` values are `Nat`, `i32` is
`Int` with wrap/saturation spelled out at the casts where the code has them,
`f64` durations and timestamps are modelled exactly as `ℚ`, `PathBuf` is a
list of path components, and fallible operations return `Except`/`Option`.
Filesystem and GPU effects are abstracted into explicit parameters
(`decode`, frame-availability flags) so every definition stays executable.
-/

/-! ## Data model (`state.rs`, `lib.rs`) -/

/-- `Rect` from `capture_wgc/src/lib.rs`: signed origin, unsigned extent. -/
structure Rect where
  x : Int
  y : Int
  width : Nat
  height : Nat
deriving DecidableEq, Repr

namespace Rect

/-- `Rect::right`. -/
def right (r : Rect) : Int := r.x + (r.width : Int)

/-- `Rect::bottom`. -/
def bottom (r : Rect) : Int := r.y + (r.height : Int)

/-- `Rect::contains`. -/
def contains (r : Rect) (px py : Int) : Bool :=
  px ≥ r.x && px < r.right && py ≥ r.y && py < r.bottom

/-- `Rect::intersects`. -/
def intersects (r other : Rect) : Bool :=
  r.x < other.right && r.right > other.x &&
  r.y < other.bottom && r.bottom > other.y

end Rect

/-- A filesystem path, modelled as its list of components (`PathBuf`). -/
abbrev PathC : Type := List String

/-- `PathBuf::join` with a single final component. -/
def PathC.join (p : PathC) (c : String) : PathC := List.append p [c]

/-- `AppState` from `app/src/state.rs`. -/
inductive AppState where
  | Idle
  | Selecting
  | Recording
  | Recorded
  | Exporting
deriving DecidableEq, Repr

namespace AppState

/-- `AppState::can_record`: true in `Idle` and `Recorded`. -/
def can_record : AppState → Bool
  | Idle => true
  | Recorded => true
  | _ => false

/-- `AppState::can_stop`: true in `Recording`. -/
def can_stop : AppState → Bool
  | Recording => true
  | _ => false

/-- `AppState::can_export`: true in `Recorded`. -/
def can_export : AppState → Bool
  | Recorded => true
  | _ => false

end AppState

/-- `RecordingTarget` from `app/src/state.rs`. -/
inductive RecordingTarget where
  | Monitor (hmonitor : Int) (region : Rect)
  | Window (hwnd : Int)
deriving DecidableEq, Repr

/-- Decimal rendering zero-padded to a minimum width of five characters,
the Rust `format!` specifier `{:05}` on an unsigned value. -/
def fmt05 (n : Nat) : String :=
  String.mk (List.replicate (5 - (Nat.repr n).length) (Char.ofNat 48)) ++ Nat.repr n

/-- The frame file name `frame_{:05}.png` used by `state.rs` and `frame.rs`. -/
def frameFileName (i : Nat) : String :=
  "frame_" ++ fmt05 i ++ ".png"

/-- `RecordingSession` from `app/src/state.rs`. -/
structure RecordingSession where
  target : RecordingTarget
  region : Rect
  temp_dir : PathC
  frame_count : Nat
  duration_secs : ℚ
  fps : Nat
deriving DecidableEq, Repr

namespace RecordingSession

/-- `RecordingSession::new`. -/
def new (target : RecordingTarget) (region : Rect) (temp_dir : PathC) (fps : Nat) :
    RecordingSession :=
  { target := target, region := region, temp_dir := temp_dir,
    frame_count := 0, duration_secs := 0, fps := fps }

/-- `RecordingSession::frame_path`. -/
def frame_path (s : RecordingSession) (index : Nat) : PathC :=
  s.temp_dir.join (frameFileName index)

/-- `RecordingSession::all_frame_paths`. -/
def all_frame_paths (s : RecordingSession) : List PathC :=
  (List.range s.frame_count).map (fun i => s.frame_path i)

end RecordingSession

/-- `StateMachine` from `app/src/state.rs`: current state plus the optional
recording session it owns. -/
structure StateMachine where
  state : AppState
  session : Option RecordingSession
deriving DecidableEq, Repr

namespace StateMachine

/-- `StateMachine::new`. -/
def new : StateMachine := { state := AppState.Idle, session := none }

/-- `StateMachine::start_selecting` (returns the Rust `bool` and the updated
machine). -/
def start_selecting (m : StateMachine) : Bool × StateMachine :=
  if m.state.can_record then
    (true, { m with state := AppState.Selecting })
  else
    (false, m)

/-- `StateMachine::start_recording`. -/
def start_recording (m : StateMachine) (s : RecordingSession) : Bool × StateMachine :=
  if m.state = AppState.Selecting then
    (true, { state := AppState.Recording, session := some s })
  else
    (false, m)

/-- `StateMachine::cancel_selecting`. -/
def cancel_selecting (m : StateMachine) : Bool × StateMachine :=
  if m.state = AppState.Selecting then
    (true, { m with state := AppState.Idle })
  else
    (false, m)

/-- `StateMachine::stop_recording`. -/
def stop_recording (m : StateMachine) : Bool × StateMachine :=
  if m.state.can_stop then
    (true, { m with state := AppState.Recorded })
  else
    (false, m)

/-- `StateMachine::start_exporting`. -/
def start_exporting (m : StateMachine) : Bool × StateMachine :=
  if m.state.can_export then
    (true, { m with state := AppState.Exporting })
  else
    (false, m)

/-- `StateMachine::finish_exporting` (returns `()` in Rust; unconditional). -/
def finish_exporting (_ : StateMachine) : StateMachine :=
  { state := AppState.Idle, session := none }

/-- `StateMachine::cancel_exporting` (returns `()` in Rust). -/
def cancel_exporting (m : StateMachine) : StateMachine :=
  if m.state = AppState.Exporting then
    { m with state := AppState.Recorded }
  else
    m

/-- `StateMachine::reset` (returns `()` in Rust; unconditional). -/
def reset (_ : StateMachine) : StateMachine :=
  { state := AppState.Idle, session := none }

end StateMachine

/-- The state machines reachable from `StateMachine::new` by any sequence of
transition calls (with arbitrary session arguments to `start_recording`). -/
inductive Reachable : StateMachine → Prop where
  | init : Reachable StateMachine.new
  | sel {m : StateMachine} : Reachable m → Reachable m.start_selecting.2
  | record {m : StateMachine} {s : RecordingSession} :
      Reachable m → Reachable (m.start_recording s).2
  | cancelSel {m : StateMachine} : Reachable m → Reachable m.cancel_selecting.2
  | stop {m : StateMachine} : Reachable m → Reachable m.stop_recording.2
  | startExp {m : StateMachine} : Reachable m → Reachable m.start_exporting.2
  | finExp {m : StateMachine} : Reachable m → Reachable m.finish_exporting
  | cancelExp {m : StateMachine} : Reachable m → Reachable m.cancel_exporting
  | res {m : StateMachine} : Reachable m → Reachable m.reset

/-- A concrete session value used in counterexamples and witnesses. -/
def demoSession : RecordingSession :=
  RecordingSession.new (RecordingTarget.Window 1)
    { x := 0, y := 0, width := 10, height := 10 } [String.mk [Char.ofNat 116]] 15

/-! ## C1: the transition table -/

/--
C1 (counterexample): the claim says every illegal transition returns failure
and leaves state and session unchanged.  `finish_exporting` is not guarded:
called on a machine in `Recording` (not `Exporting`, so the transition is
illegal by the §4.1 table) it still moves the state to `Idle` and clears the
session.
-/
theorem finish_exporting_mutates_illegally :
    (StateMachine.finish_exporting
        { state := AppState.Recording, session := some demoSession }).state = AppState.Idle
    ∧ (StateMachine.finish_exporting
        { state := AppState.Recording, session := some demoSession }).session = none
    ∧ AppState.Idle ≠ AppState.Recording
    ∧ some demoSession ≠ (none : Option RecordingSession) := by
  refine ⟨rfl, rfl, by decide, by simp⟩

/--
C1 (amended): every transition is a deterministic function of the current
machine; the five `bool`-returning transitions (`start_selecting`,
`start_recording`, `cancel_selecting`, `stop_recording`, `start_exporting`)
match the §4.1 table exactly — a legal transition moves to the listed target
state and returns `true`, an illegal one returns `false` and leaves state and
session unchanged; `cancel_exporting` moves `Exporting` to `Recorded` and is a
no-op otherwise (it returns no flag); `reset` moves any state to `Idle`
clearing the session (legal from every state); but `finish_exporting` is
unguarded: from any state, legal or not, it moves to `Idle` and clears the
session, and it returns no failure flag.
-/
theorem state_machine_transition_table (m : StateMachine) (s : RecordingSession) :
    (m.start_selecting =
      if m.state = AppState.Idle ∨ m.state = AppState.Recorded then
        (true, { m with state := AppState.Selecting }) else (false, m))
    ∧ (m.start_recording s =
      if m.state = AppState.Selecting then
        (true, { state := AppState.Recording, session := some s }) else (false, m))
    ∧ (m.cancel_selecting =
      if m.state = AppState.Selecting then
        (true, { m with state := AppState.Idle }) else (false, m))
    ∧ (m.stop_recording =
      if m.state = AppState.Recording then
        (true, { m with state := AppState.Recorded }) else (false, m))
    ∧ (m.start_exporting =
      if m.state = AppState.Recorded then
        (true, { m with state := AppState.Exporting }) else (false, m))
    ∧ (m.finish_exporting = { state := AppState.Idle, session := none })
    ∧ (m.cancel_exporting =
      if m.state = AppState.Exporting then
        { m with state := AppState.Recorded } else m)
    ∧ (m.reset = { state := AppState.Idle, session := none }) := by
  obtain ⟨st, ses⟩ := m
  cases st <;>
    simp [StateMachine.start_selecting, StateMachine.start_recording,
      StateMachine.cancel_selecting, StateMachine.stop_recording,
      StateMachine.start_exporting, StateMachine.finish_exporting,
      StateMachine.cancel_exporting, StateMachine.reset,
      AppState.can_record, AppState.can_stop, AppState.can_export]

/-! ## C3: the session/state invariant on reachable machines -/

/-- `can_stop` holds exactly in `Recording`. -/
theorem AppState.can_stop_iff (st : AppState) :
    st.can_stop = true ↔ st = AppState.Recording := by
  cases st <;> simp [AppState.can_stop]

/-- `can_export` holds exactly in `Recorded`. -/
theorem AppState.can_export_iff (st : AppState) :
    st.can_export = true ↔ st = AppState.Recorded := by
  cases st <;> simp [AppState.can_export]

/-- `can_record` holds exactly in `Idle` and `Recorded`. -/
theorem AppState.can_record_iff (st : AppState) :
    st.can_record = true ↔ (st = AppState.Idle ∨ st = AppState.Recorded) := by
  cases st <;> simp [AppState.can_record]

/-- Helper for C3: on every reachable machine, a session is present whenever
the state is `Recording`, `Recorded` or `Exporting`. -/
theorem session_present_of_reachable {m : StateMachine} (h : Reachable m) :
    (m.state = AppState.Recording ∨ m.state = AppState.Recorded
      ∨ m.state = AppState.Exporting) → m.session.isSome := by
  induction h with
  | init => intro hc; rcases hc with hc | hc | hc <;> exact absurd hc (by decide)
  | sel h ih =>
      unfold StateMachine.start_selecting
      split
      · intro hc; rcases hc with hc | hc | hc <;> simp at hc
      · exact ih
  | record h ih =>
      unfold StateMachine.start_recording
      split
      · intro _; rfl
      · exact ih
  | cancelSel h ih =>
      unfold StateMachine.cancel_selecting
      split
      · intro hc; rcases hc with hc | hc | hc <;> simp at hc
      · exact ih
  | @stop m h ih =>
      unfold StateMachine.stop_recording
      split
      · rename_i hs
        intro _
        exact ih (Or.inl ((AppState.can_stop_iff m.state).mp hs))
      · exact ih
  | @startExp m h ih =>
      unfold StateMachine.start_exporting
      split
      · rename_i hs
        intro _
        exact ih (Or.inr (Or.inl ((AppState.can_export_iff m.state).mp hs)))
      · exact ih
  | finExp h ih =>
      intro hc; rcases hc with hc | hc | hc <;>
        simp [StateMachine.finish_exporting] at hc
  | @cancelExp m h ih =>
      unfold StateMachine.cancel_exporting
      split
      · rename_i hs
        intro _
        exact ih (Or.inr (Or.inr hs))
      · exact ih
  | res h ih =>
      intro hc; rcases hc with hc | hc | hc <;> simp [StateMachine.reset] at hc

/--
C3 (counterexample): the claim also asserts that no session is present in
`Idle` or `Selecting`.  The reachable trace
`new → start_selecting → start_recording → stop_recording → start_selecting`
ends in `Selecting` with the old session still stored (`start_selecting` from
`Recorded` does not clear it).
-/
theorem stale_session_in_selecting :
    Reachable ((((StateMachine.new.start_selecting).2.start_recording
        demoSession).2.stop_recording).2.start_selecting).2
    ∧ ((((StateMachine.new.start_selecting).2.start_recording
        demoSession).2.stop_recording).2.start_selecting).2.state = AppState.Selecting
    ∧ ((((StateMachine.new.start_selecting).2.start_recording
        demoSession).2.stop_recording).2.start_selecting).2.session = some demoSession := by
  refine ⟨?_, by decide, by decide⟩
  exact Reachable.sel (Reachable.stop (Reachable.record (Reachable.sel Reachable.init)))

/--
C3 (amended): in every state machine reachable from the initial one, a session
is present whenever the state is `Recording`, `Recorded` or `Exporting`, and
`start_recording` succeeds exactly from `Selecting`; however a stale session
from the previous recording may remain stored in `Selecting` (and in `Idle`),
because `start_selecting` from `Recorded` does not clear it.
-/
theorem reachable_session_invariant (m : StateMachine) (h : Reachable m) :
    ((m.state = AppState.Recording ∨ m.state = AppState.Recorded
      ∨ m.state = AppState.Exporting) → m.session.isSome)
    ∧ ∀ s : RecordingSession,
        ((m.start_recording s).1 = true ↔ m.state = AppState.Selecting) := by
  refine ⟨session_present_of_reachable h, fun s => ?_⟩
  unfold StateMachine.start_recording
  split <;> rename_i hs <;> simp [hs]

/-- C3 witness: the amended invariant applied to a concrete reachable machine
in state `Recording`. -/
theorem reachable_session_invariant_witness :
    (((StateMachine.new.start_selecting).2.start_recording demoSession).2.session.isSome)
    ∧ ((((StateMachine.new.start_selecting).2.start_recording
          demoSession).2.start_recording demoSession).1 = true
        ↔ ((StateMachine.new.start_selecting).2.start_recording
          demoSession).2.state = AppState.Selecting) := by
  have h := reachable_session_invariant
    ((StateMachine.new.start_selecting).2.start_recording demoSession).2
    (Reachable.record (Reachable.sel Reachable.init))
  exact ⟨h.1 (Or.inl rfl), h.2 demoSession⟩

/-! ## Frame data and BGRA→RGBA conversion (`capture_wgc/src/frame.rs`) -/

/-- A pixel byte buffer (`Vec<u8>`; byte values are naturals below 256). -/
abbrev Bytes : Type := List Nat

/-- `FrameData` from `capture_wgc/src/frame.rs`.  The `Instant` timestamp is
modelled as rational seconds. -/
structure FrameData where
  data : Bytes
  width : Nat
  height : Nat
  timestamp : ℚ
deriving DecidableEq, Repr

/-- An `image::RgbaImage`: dimensions plus the raw RGBA byte buffer. -/
structure RgbaImage where
  width : Nat
  height : Nat
  data : Bytes
deriving DecidableEq, Repr

/-- The loop body of `FrameData::to_rgba_image`:
`for chunk in rgba_data.chunks_exact_mut(4) { chunk.swap(0, 2); }`.
Each complete 4-byte chunk has bytes 0 and 2 swapped; the remainder
(fewer than 4 trailing bytes) is left untouched, as `chunks_exact_mut` does. -/
def bgraSwap : Bytes → Bytes
  | b :: g :: r :: a :: rest => r :: g :: b :: a :: bgraSwap rest
  | rest => rest

/-- `FrameData::to_rgba_image`.  `ImageBuffer::from_raw` requires the buffer
to hold at least `width * height * 4` samples (the Rust code `.expect`s on
the `None` case, modelled as `Option`). -/
def FrameData.to_rgba_image (f : FrameData) : Option RgbaImage :=
  if f.width * f.height * 4 ≤ (bgraSwap f.data).length then
    some { width := f.width, height := f.height, data := bgraSwap f.data }
  else
    none

/-- The corrected copy region of `FrameData::crop` (frame.rs lines 40–43):
origin clamped to zero, extent clamped with saturating subtraction. -/
def FrameData.cropRegion (f : FrameData) (rect : Rect) : Nat × Nat × Nat × Nat :=
  let src_x := (max rect.x 0).toNat
  let src_y := (max rect.y 0).toNat
  let crop_width := min rect.width (f.width - src_x)
  let crop_height := min rect.height (f.height - src_y)
  (src_x, src_y, crop_width, crop_height)

/-- `FrameData::crop`: row-by-row copy of the corrected region. -/
def FrameData.crop (f : FrameData) (rect : Rect) : FrameData :=
  let r := f.cropRegion rect
  let src_x := r.1
  let src_y := r.2.1
  let crop_width := r.2.2.1
  let crop_height := r.2.2.2
  { data := (List.range crop_height).flatMap
      (fun y => (f.data.drop (((src_y + y) * f.width + src_x) * 4)).take (crop_width * 4)),
    width := crop_width, height := crop_height, timestamp := f.timestamp }

/-- The Rust `i32 as u32` cast (two's-complement wrap). -/
def u32OfI32 (z : Int) : Nat := (z % (2 ^ 32)).toNat

/-- The copy-region computation of `CaptureController::process_frame`
(capture.rs lines 141–150): for `Some(rect)` the origin is clamped to zero
and the extent clamped against the content size; with no crop rect the full
frame `(0, 0, W, H)` is used. -/
def captureCopyRegion (sizeWidth sizeHeight : Int) (crop_rect : Option Rect) :
    Nat × Nat × Nat × Nat :=
  match crop_rect with
  | some rect =>
      ((max rect.x 0).toNat,
       (max rect.y 0).toNat,
       min rect.width (u32OfI32 (sizeWidth - max rect.x 0)),
       min rect.height (u32OfI32 (sizeHeight - max rect.y 0)))
  | none => (0, 0, u32OfI32 sizeWidth, u32OfI32 sizeHeight)

/-! ## C2: crop clamping for negative origins -/

/--
C2 (counterexample): for the crop rect `{x := -10, y := 0, width := 100,
height := 50}` on a 200×200 frame, both crop steps yield the corrected region
`(0, 0, 100, 50)`: the width is *not* reduced to `width + x = 90` as the
claim requires — the code clamps the extent against the frame bounds from the
clamped origin but does not subtract the negative-origin overflow.
-/
theorem crop_width_not_reduced_by_overflow :
    FrameData.cropRegion { data := [], width := 200, height := 200, timestamp := 0 }
        { x := -10, y := 0, width := 100, height := 50 } = (0, 0, 100, 50)
    ∧ captureCopyRegion 200 200 (some { x := -10, y := 0, width := 100, height := 50 })
        = (0, 0, 100, 50)
    ∧ (100 : Int) ≠ 100 + (-10) := by
  refine ⟨by decide, by decide, by decide⟩

/--
C2 (amended): for a crop rect with negative origin (`x < 0` or `y < 0`) on a
`W×H` frame, the corrected region of `FrameData::crop` has its origin clamped
to non-negative values (each negative component becomes `0`), its width is
`min(rect.width, W − clamped_x)` and its height `min(rect.height, H −
clamped_y)` — so the extent never exceeds `(W, H)` minus the clamped origin —
and `CaptureController::process_frame` computes the same region whenever the
clamped origin lies within the content size (which fits in `u32`); the extent
is *not* reduced by exactly the clamped overflow: it shrinks only when the
requested extent overruns the frame bound from the clamped origin.
-/
theorem crop_region_clamps (f : FrameData) (rect : Rect)
    (hneg : rect.x < 0 ∨ rect.y < 0)
    (hw : (f.width : Int) < 2 ^ 32) (hh : (f.height : Int) < 2 ^ 32) :
    (f.cropRegion rect).1 = rect.x.toNat
    ∧ (f.cropRegion rect).2.1 = rect.y.toNat
    ∧ (rect.x < 0 → (f.cropRegion rect).1 = 0)
    ∧ (rect.y < 0 → (f.cropRegion rect).2.1 = 0)
    ∧ (f.cropRegion rect).2.2.1 = min rect.width (f.width - rect.x.toNat)
    ∧ (f.cropRegion rect).2.2.2 = min rect.height (f.height - rect.y.toNat)
    ∧ (f.cropRegion rect).2.2.1 ≤ f.width - (f.cropRegion rect).1
    ∧ (f.cropRegion rect).2.2.2 ≤ f.height - (f.cropRegion rect).2.1
    ∧ (max rect.x 0 ≤ (f.width : Int) → max rect.y 0 ≤ (f.height : Int) →
        captureCopyRegion (f.width : Int) (f.height : Int) (some rect) = f.cropRegion rect) := by
  have hxc : max rect.x 0 = rect.x ∨ max rect.x 0 = 0 := max_choice _ _
  have hyc : max rect.y 0 = rect.y ∨ max rect.y 0 = 0 := max_choice _ _
  have hxl : rect.x ≤ max rect.x 0 := le_max_left _ _
  have hyl : rect.y ≤ max rect.y 0 := le_max_left _ _
  have hx0 : (0 : Int) ≤ max rect.x 0 := le_max_right _ _
  have hy0 : (0 : Int) ≤ max rect.y 0 := le_max_right _ _
  have hx : (max rect.x 0).toNat = rect.x.toNat := by omega
  have hy : (max rect.y 0).toNat = rect.y.toNat := by omega
  refine ⟨?_, ?_, ?_, ?_, ?_, ?_, ?_, ?_, ?_⟩
  · simp only [FrameData.cropRegion, hx]
  · simp only [FrameData.cropRegion, hy]
  · intro h0; simp only [FrameData.cropRegion]; omega
  · intro h0; simp only [FrameData.cropRegion]; omega
  · simp only [FrameData.cropRegion, hx]
  · simp only [FrameData.cropRegion, hy]
  · simp only [FrameData.cropRegion, hx]; omega
  · simp only [FrameData.cropRegion, hy]; omega
  · intro hxw hyw
    have e1 : u32OfI32 ((f.width : Int) - max rect.x 0) = f.width - (max rect.x 0).toNat := by
      unfold u32OfI32
      have he : ((f.width : Int) - max rect.x 0) % 2 ^ 32 = (f.width : Int) - max rect.x 0 :=
        Int.emod_eq_of_lt (by omega) (by omega)
      omega
    have e2 : u32OfI32 ((f.height : Int) - max rect.y 0) = f.height - (max rect.y 0).toNat := by
      unfold u32OfI32
      have he : ((f.height : Int) - max rect.y 0) % 2 ^ 32 = (f.height : Int) - max rect.y 0 :=
        Int.emod_eq_of_lt (by omega) (by omega)
      omega
    simp only [captureCopyRegion, FrameData.cropRegion, e1, e2]

/-- C2 witness: the amended statement applied to the concrete counterexample
frame and rect (`x = -10 < 0`, 200×200 frame). -/
theorem crop_region_clamps_witness :
    ((-10 : Int) < 0 ∨ (0 : Int) < 0)
    ∧ (FrameData.cropRegion { data := [], width := 200, height := 200, timestamp := 0 }
        { x := -10, y := 0, width := 100, height := 50 }).2.2.1
        ≤ 200 - (FrameData.cropRegion { data := [], width := 200, height := 200, timestamp := 0 }
        { x := -10, y := 0, width := 100, height := 50 }).1 := by
  refine ⟨Or.inl (by decide), ?_⟩
  exact (crop_region_clamps { data := [], width := 200, height := 200, timestamp := 0 }
    { x := -10, y := 0, width := 100, height := 50 }
    (Or.inl (by decide)) (by norm_num) (by norm_num)).2.2.2.2.2.2.1

/-! ## C10: the BGRA→RGBA channel swap -/

/-- `bgraSwap` preserves the buffer length. -/
theorem bgraSwap_length : ∀ l : Bytes, (bgraSwap l).length = l.length := by
  intro l
  induction l using bgraSwap.induct with
  | case1 b g r a rest ih => simp [bgraSwap, ih]
  | case2 l h =>
      cases l with
      | nil => rfl
      | cons x xs => cases xs with
        | nil => rfl
        | cons y ys => cases ys with
          | nil => rfl
          | cons z zs => cases zs with
            | nil => rfl
            | cons w ws => exact absurd rfl (h x y z w ws)

/-- `bgraSwap` is an involution on any byte buffer. -/
theorem bgraSwap_involutive : ∀ l : Bytes, bgraSwap (bgraSwap l) = l := by
  intro l
  induction l using bgraSwap.induct with
  | case1 b g r a rest ih => simp [bgraSwap, ih]
  | case2 l h =>
      cases l with
      | nil => rfl
      | cons x xs => cases xs with
        | nil => rfl
        | cons y ys => cases ys with
          | nil => rfl
          | cons z zs => cases zs with
            | nil => rfl
            | cons w ws => exact absurd rfl (h x y z w ws)

/-- Per-pixel characterisation of `bgraSwap`: within every complete 4-byte
chunk, bytes 0 and 2 trade places and bytes 1 and 3 stay. -/
theorem bgraSwap_get? : ∀ (i : Nat) (l : Bytes), 4 * i + 3 < l.length →
    (bgraSwap l).get? (4 * i) = l.get? (4 * i + 2)
    ∧ (bgraSwap l).get? (4 * i + 1) = l.get? (4 * i + 1)
    ∧ (bgraSwap l).get? (4 * i + 2) = l.get? (4 * i)
    ∧ (bgraSwap l).get? (4 * i + 3) = l.get? (4 * i + 3) := by
  intro i
  induction i with
  | zero =>
      intro l h
      match l, h with
      | b :: g :: r :: a :: rest, _ => exact ⟨rfl, rfl, rfl, rfl⟩
  | succ j ih =>
      intro l h
      match l, h with
      | b :: g :: r :: a :: rest, h =>
          have h' : 4 * j + 3 < rest.length := by
            simp only [List.length_cons] at h; omega
          exact ih rest h'

/--
C10 (confirmed): for a frame whose buffer length is `width * height * 4`,
`to_rgba_image` succeeds, keeps width and height and the buffer length, and
its buffer holds, for every pixel index `i < width * height`, byte 0 of the
converted pixel equal to byte 2 of the source pixel and vice versa with bytes
1 and 3 unchanged; applying the channel swap twice is the identity.
-/
theorem to_rgba_image_swaps_channels (f : FrameData)
    (h : f.data.length = f.width * f.height * 4) :
    f.to_rgba_image = some
      { width := f.width, height := f.height, data := bgraSwap f.data }
    ∧ (bgraSwap f.data).length = f.data.length
    ∧ (∀ i, i < f.width * f.height →
        (bgraSwap f.data).get? (4 * i) = f.data.get? (4 * i + 2)
        ∧ (bgraSwap f.data).get? (4 * i + 1) = f.data.get? (4 * i + 1)
        ∧ (bgraSwap f.data).get? (4 * i + 2) = f.data.get? (4 * i)
        ∧ (bgraSwap f.data).get? (4 * i + 3) = f.data.get? (4 * i + 3))
    ∧ bgraSwap (bgraSwap f.data) = f.data := by
  refine ⟨?_, bgraSwap_length f.data, ?_, bgraSwap_involutive f.data⟩
  · unfold FrameData.to_rgba_image
    rw [if_pos]
    rw [bgraSwap_length, h]
  · intro i hi
    exact bgraSwap_get? i f.data (by omega)

/-- A concrete one-pixel BGRA frame used as the C10 witness input. -/
def demoFrame : FrameData :=
  { data := [1, 2, 3, 4], width := 1, height := 1, timestamp := 0 }

/-- C10 witness: the theorem applied to the concrete one-pixel frame. -/
theorem to_rgba_image_swaps_channels_witness :
    demoFrame.data.length = demoFrame.width * demoFrame.height * 4
    ∧ demoFrame.to_rgba_image = some
        { width := demoFrame.width, height := demoFrame.height,
          data := bgraSwap demoFrame.data }
    ∧ bgraSwap (bgraSwap demoFrame.data) = demoFrame.data :=
  ⟨by decide, (to_rgba_image_swaps_channels demoFrame (by decide)).1,
    (to_rgba_image_swaps_channels demoFrame (by decide)).2.2.2⟩

/-! ## Frame processor (`capture_wgc/src/frame.rs`) -/

/-- `FrameProcessor` from `capture_wgc/src/frame.rs`. -/
structure FrameProcessor where
  output_dir : PathC
  frame_count : Nat
  crop_rect : Option Rect
deriving DecidableEq, Repr

namespace FrameProcessor

/-- `FrameProcessor::new`. -/
def new (output_dir : PathC) : FrameProcessor :=
  { output_dir := output_dir, frame_count := 0, crop_rect := none }

/-- `FrameProcessor::set_crop_rect`. -/
def set_crop_rect (p : FrameProcessor) (rect : Option Rect) : FrameProcessor :=
  { p with crop_rect := rect }

/-- `FrameProcessor::process_frame`, success path: crops if a crop rect is
set, assigns `frame_{:05}.png` at the current counter, and increments the
counter.  (The PNG write itself is I/O; a failed write would return early
without incrementing.)  Returns the saved frame, its path, and the updated
processor. -/
def process_frame (p : FrameProcessor) (frame : FrameData) :
    (FrameData × PathC) × FrameProcessor :=
  let frame_to_save :=
    match p.crop_rect with
    | some rect => frame.crop rect
    | none => frame
  let path := PathC.join p.output_dir (frameFileName p.frame_count)
  ((frame_to_save, path), { p with frame_count := p.frame_count + 1 })

/-- `FrameProcessor::get_frame_paths`. -/
def get_frame_paths (p : FrameProcessor) : List PathC :=
  (List.range p.frame_count).map (fun i => PathC.join p.output_dir (frameFileName i))

/-- `FrameProcessor::reset`. -/
def reset (p : FrameProcessor) : FrameProcessor :=
  { p with frame_count := 0 }

end FrameProcessor

/-! ## C5: frame path determinism and format -/

/--
C5 (counterexample): the claim asserts a fixed-width 5-digit zero-padded
index for *every* frame count `N`.  For `N = 100001`, the path of frame
100000 is `frame_100000.png`: the `{:05}` format specifier is a minimum
width, so the index field has 6 digits, not 5.
-/
theorem frame_path_index_has_six_digits :
    PathC.join [String.mk [Char.ofNat 100]] (frameFileName 100000)
      ∈ (FrameProcessor.mk [String.mk [Char.ofNat 100]] 100001 none).get_frame_paths
    ∧ frameFileName 100000 = "frame_100000.png"
    ∧ (fmt05 100000).length = 6
    ∧ (6 : Nat) ≠ 5 := by
  refine ⟨?_, by decide, by decide, by decide⟩
  unfold FrameProcessor.get_frame_paths
  exact List.mem_map.mpr ⟨100000, List.mem_range.mpr (by norm_num), rfl⟩

/--
C5 (amended): for every frame count `N`, `get_frame_paths()` (and
`all_frame_paths()`) returns exactly `N` paths, for indices `0 … N-1` in
order, each of the form `frame_` + index + `.png` under the output directory
with the decimal index zero-padded to a *minimum* width of 5 digits — exactly
5 digits whenever the index is below 100000, wider afterwards — and the
result depends only on the frame count and the directory.
-/
theorem get_frame_paths_spec (p : FrameProcessor) (s : RecordingSession) :
    p.get_frame_paths.length = p.frame_count
    ∧ (∀ i, i < p.frame_count →
        p.get_frame_paths.get? i = some (PathC.join p.output_dir (frameFileName i)))
    ∧ s.all_frame_paths.length = s.frame_count
    ∧ (∀ i, i < s.frame_count →
        s.all_frame_paths.get? i = some (PathC.join s.temp_dir (frameFileName i)))
    ∧ (∀ i, i < 100000 → (fmt05 i).length = 5)
    ∧ (∀ q : FrameProcessor, q.output_dir = p.output_dir → q.frame_count = p.frame_count →
        q.get_frame_paths = p.get_frame_paths) := by
  refine ⟨?_, ?_, ?_, ?_, ?_, ?_⟩
  · simp [FrameProcessor.get_frame_paths]
  · intro i hi
    simp [FrameProcessor.get_frame_paths, List.get?_eq_getElem?, List.getElem?_map,
      List.getElem?_range, hi]
  · simp [RecordingSession.all_frame_paths]
  · intro i hi
    simp [RecordingSession.all_frame_paths, RecordingSession.frame_path,
      List.get?_eq_getElem?, List.getElem?_map, List.getElem?_range, hi]
  · intro i hi
    have h5 : (Nat.repr i).length ≤ 5 := by
      refine Nat.repr_length i 5 (by norm_num) ?_
      have : (10 : Nat) ^ 5 = 100000 := by norm_num
      omega
    simp [fmt05, String.length_append]
    omega
  · intro q hdir hcount
    simp [FrameProcessor.get_frame_paths, hdir, hcount]

/-! ## C4: the export caller's fps derivation (`on_export_click`) -/

/-- Rust `f64::round`: round half away from zero. -/
def rustRound (q : ℚ) : Int :=
  if 0 ≤ q then ⌊q + 1 / 2⌋ else ⌈q - 1 / 2⌉

/-- Rust `f64 as i32`: saturating cast (the value is modelled exactly, so
only the i32 range clipping remains). -/
def i32Sat (z : Int) : Int :=
  max (-(2 ^ 31)) (min (2 ^ 31 - 1) z)

/-- The fps derivation in `on_export_click` (main.rs lines 391–396,
main_egui.rs lines 382–386):

```rust
let mut fps = 15u8;
if duration_secs > 0.0 && frame_count > 0 {
    let calc = (frame_count as f64 / duration_secs).round() as i32;
    let clamped = calc.clamp(1, 60);
    fps = clamped as u8;
}
```
-/
def derive_export_fps (frame_count : Nat) (duration_secs : ℚ) : Nat :=
  if 0 < duration_secs ∧ 0 < frame_count then
    (min (max (i32Sat (rustRound ((frame_count : ℚ) / duration_secs))) 1) 60).toNat % 256
  else
    15

/--
C4 (confirmed): whenever `duration > 0` and `frame_count > 0`, the derived
encoder fps is `round(frame_count / duration)` clamped to `[1, 60]` (the
saturating `as i32` cast never changes the clamped result), so it always lies
in `[1, 60]`; in particular 150 frames over 10 seconds give fps 15; and for
`duration = 0` the derivation falls back to the default fps 15 without
dividing.
-/
theorem derive_export_fps_spec (frame_count : Nat) (duration_secs : ℚ)
    (hd : 0 < duration_secs) (hc : 0 < frame_count) :
    (derive_export_fps frame_count duration_secs : Int)
        = min 60 (max 1 (rustRound ((frame_count : ℚ) / duration_secs)))
    ∧ 1 ≤ derive_export_fps frame_count duration_secs
    ∧ derive_export_fps frame_count duration_secs ≤ 60
    ∧ derive_export_fps frame_count 0 = 15
    ∧ derive_export_fps 150 10 = 15 := by
  have hq : 0 < (frame_count : ℚ) / duration_secs :=
    div_pos (by exact_mod_cast hc) hd
  have hr : 0 ≤ rustRound ((frame_count : ℚ) / duration_secs) := by
    unfold rustRound
    rw [if_pos hq.le]
    exact Int.floor_nonneg.mpr (by positivity)
  have h31 : (2 : Int) ^ 31 = 2147483648 := by norm_num
  have hmain : (derive_export_fps frame_count duration_secs : Int)
      = min 60 (max 1 (rustRound ((frame_count : ℚ) / duration_secs))) := by
    unfold derive_export_fps
    rw [if_pos ⟨hd, hc⟩]
    unfold i32Sat
    rw [h31]
    omega
  refine ⟨hmain, by omega, by omega, ?_, ?_⟩
  · unfold derive_export_fps
    rw [if_neg]
    simp
  · norm_num [derive_export_fps, i32Sat, rustRound]
    decide

/-- C4 witness: the theorem applied at `frame_count = 150`,
`duration = 10.0`. -/
theorem derive_export_fps_witness :
    (0 : ℚ) < 10 ∧ 0 < 150
    ∧ (derive_export_fps 150 10 : Int) = min 60 (max 1 (rustRound ((150 : ℚ) / 10))) :=
  ⟨by norm_num, by norm_num, (derive_export_fps_spec 150 10 (by norm_num) (by norm_num)).1⟩

/-! ## GIF export pipeline (`export/src/gif.rs`) -/

/-- `ExportError` from `export/src/lib.rs`. -/
inductive ExportError where
  | ioErr (msg : String)
  | imageErr (msg : String)
  | gifEncode (msg : String)
  | noFrames
  | cancelled
deriving DecidableEq, Repr

/-- `GifExportConfig` from `export/src/gif.rs`. -/
structure GifExportConfig where
  output_path : PathC
  fps : Nat
  quality : Nat
  width : Option Nat
  height : Option Nat
  fast : Bool
deriving DecidableEq, Repr

/-- `GifExportConfig::default()`: fps 15, quality 90. -/
def GifExportConfig.default : GifExportConfig :=
  { output_path := [], fps := 15, quality := 90, width := none, height := none,
    fast := false }

/-- A collector submission: the frame index handed to `add_frame_rgba`
together with its presentation timestamp `i as f64 / fps as f64`. -/
abbrev Submission : Type := Nat × ℚ

/-- The collector thread of `GifExporter::export_from_pngs` (gif.rs lines
193–206): iterate over the paths in index order, decode each
(`image::open(path)?`, abstracted as the `decode` parameter), submit the
frame with timestamp `i / fps`, and stop at the first decode error.  Returns
the submissions actually made and the stage result. -/
def collectorStage (decode : PathC → Except ExportError RgbaImage) (fps : Nat) :
    Nat → List PathC → List Submission × Except ExportError Unit
  | _, [] => ([], Except.ok ())
  | i, p :: rest =>
    match decode p with
    | Except.error e => ([], Except.error e)
    | Except.ok _ =>
        let r := collectorStage decode fps (i + 1) rest
        ((i, (i : ℚ) / (fps : ℚ)) :: r.1, r.2)

/-- The observable outcome of one `export_from_pngs` call: whether the two
stage threads were spawned, what the collector submitted, and the result. -/
structure ExportRun where
  collector_spawned : Bool
  writer_spawned : Bool
  submissions : List Submission
  result : Except ExportError PathC

/-- `GifExporter::export_from_pngs`: empty input is rejected with `NoFrames`
before anything is spawned; a `gifski::new` failure (abstracted as the
`gifskiNew` parameter) is reported before spawning; otherwise both stages run
and the collector's error, if any, is reported first (it is joined first).
The writer's file output is abstracted as succeeding. -/
def export_from_pngs (decode : PathC → Except ExportError RgbaImage)
    (gifskiNew : Except String Unit) (png_paths : List PathC)
    (config : GifExportConfig) : ExportRun :=
  if png_paths.isEmpty then
    { collector_spawned := false, writer_spawned := false, submissions := [],
      result := Except.error ExportError.noFrames }
  else
    match gifskiNew with
    | Except.error e =>
        { collector_spawned := false, writer_spawned := false, submissions := [],
          result := Except.error (ExportError.gifEncode e) }
    | Except.ok _ =>
        let r := collectorStage decode config.fps 0 png_paths
        { collector_spawned := true, writer_spawned := true, submissions := r.1,
          result :=
            match r.2 with
            | Except.error e => Except.error e
            | Except.ok _ => Except.ok config.output_path }

/-! ## C6: empty export is rejected before the pipeline starts -/

/--
C6 (confirmed): `export_from_pngs` on an empty path list returns the distinct
`NoFrames` error, makes no submissions, and spawns neither the collector nor
the writer stage — the emptiness check precedes everything else.
-/
theorem export_from_pngs_rejects_empty (decode : PathC → Except ExportError RgbaImage)
    (gifskiNew : Except String Unit) (config : GifExportConfig) :
    (export_from_pngs decode gifskiNew [] config).result
        = Except.error ExportError.noFrames
    ∧ (export_from_pngs decode gifskiNew [] config).collector_spawned = false
    ∧ (export_from_pngs decode gifskiNew [] config).writer_spawned = false
    ∧ (export_from_pngs decode gifskiNew [] config).submissions = [] :=
  ⟨rfl, rfl, rfl, rfl⟩

/-! ## C7: encoder failure returns the machine to Recorded -/

/-- The result handling of the export thread spawned by `on_export_click`
(main.rs lines 405–426): `Ok` leads to `finish_exporting`, `Err` to
`cancel_exporting` (plus status-text updates, which carry no state). -/
def handle_export_result (m : StateMachine) (result : Except ExportError PathC) :
    StateMachine :=
  match result with
  | Except.ok _ => m.finish_exporting
  | Except.error _ => m.cancel_exporting

/--
C7 (confirmed): when the export attempt fails after exporting has started
(state `Exporting`), the machine is returned to `Recorded`, not `Idle`, and
the stored session — temp dir, frame count and all — is exactly the one from
before, so export can be retried.
-/
theorem export_failure_returns_to_recorded (m : StateMachine) (e : ExportError)
    (h : m.state = AppState.Exporting) :
    (handle_export_result m (Except.error e)).state = AppState.Recorded
    ∧ (handle_export_result m (Except.error e)).state ≠ AppState.Idle
    ∧ (handle_export_result m (Except.error e)).session = m.session := by
  have hm : m.cancel_exporting = { state := AppState.Recorded, session := m.session } := by
    unfold StateMachine.cancel_exporting
    rw [if_pos h]
  simp [handle_export_result, hm]

/-- C7 witness: a failing export on a concrete `Exporting` machine keeps its
session and lands in `Recorded`. -/
theorem export_failure_returns_to_recorded_witness :
    (handle_export_result { state := AppState.Exporting, session := some demoSession }
        (Except.error ExportError.noFrames)).state = AppState.Recorded
    ∧ (handle_export_result { state := AppState.Exporting, session := some demoSession }
        (Except.error ExportError.noFrames)).session = some demoSession := by
  have h := export_failure_returns_to_recorded
    { state := AppState.Exporting, session := some demoSession }
    ExportError.noFrames rfl
  exact ⟨h.1, h.2.2⟩

/-! ## C8: collector submissions are in index order with timestamps i/fps -/

/-- Helper for C8: when every decode succeeds, the collector starting at
index `start` submits exactly one frame per path, in index order, with
timestamp `index / fps`, and the stage succeeds. -/
theorem collectorStage_all_ok (decode : PathC → Except ExportError RgbaImage)
    (fps : Nat) (hdec : ∀ p, ∃ img, decode p = Except.ok img) :
    ∀ (paths : List PathC) (start : Nat),
    (collectorStage decode fps start paths).1
        = (List.range paths.length).map
            (fun k => (start + k, ((start + k : Nat) : ℚ) / (fps : ℚ)))
    ∧ (collectorStage decode fps start paths).2 = Except.ok () := by
  intro paths
  induction paths with
  | nil => intro start; exact ⟨rfl, rfl⟩
  | cons p rest ih =>
      intro start
      obtain ⟨img, himg⟩ := hdec p
      obtain ⟨ih1, ih2⟩ := ih (start + 1)
      constructor
      · simp only [collectorStage, himg, ih1, List.length_cons, List.range_succ_eq_map,
          List.map_cons, List.map_map, List.cons.injEq]
        refine ⟨by simp, ?_⟩
        apply List.map_congr_left
        intro k _
        have hk : start + 1 + k = start + (k + 1) := by omega
        simp [Function.comp, hk]
      · simp only [collectorStage, himg, ih2]

/--
C8 (confirmed): with every decode succeeding and `1 ≤ fps ≤ 255`, the
collector stage submits exactly frame `i` with presentation timestamp
`i / fps` for every `i` below the frame total, in strict index order, so both
the submitted indices and the submitted timestamps are strictly increasing.
-/
theorem collector_submits_in_order (decode : PathC → Except ExportError RgbaImage)
    (fps : Nat) (paths : List PathC)
    (hfps1 : 1 ≤ fps) (hfps255 : fps ≤ 255)
    (hdec : ∀ p, ∃ img, decode p = Except.ok img) :
    (collectorStage decode fps 0 paths).1
        = (List.range paths.length).map (fun i : Nat => (i, (i : ℚ) / (fps : ℚ)))
    ∧ List.Pairwise (fun a b : Submission => a.1 < b.1 ∧ a.2 < b.2)
        (collectorStage decode fps 0 paths).1 := by
  obtain ⟨h1, _⟩ := collectorStage_all_ok decode fps hdec paths 0
  have h0 : (collectorStage decode fps 0 paths).1
      = (List.range paths.length).map (fun i : Nat => (i, (i : ℚ) / (fps : ℚ))) := by
    rw [h1]
    apply List.map_congr_left
    intro k _
    simp
  refine ⟨h0, ?_⟩
  rw [h0]
  have hfpsQ : (0 : ℚ) < (fps : ℚ) := by
    exact_mod_cast Nat.lt_of_lt_of_le Nat.zero_lt_one hfps1
  refine List.Pairwise.map _ ?_ (List.pairwise_lt_range _)
  intro a b hab
  refine ⟨hab, ?_⟩
  exact (div_lt_div_iff_of_pos_right hfpsQ).mpr (by exact_mod_cast hab)

/-- A trivially successful decode used as the C8 witness input. -/
def demoDecode : PathC → Except ExportError RgbaImage := fun _ =>
  Except.ok { width := 1, height := 1, data := [0, 0, 0, 0] }

/-- C8 witness: two frames at 15 fps are submitted as indices 0 and 1 with
timestamps 0 and 1/15. -/
theorem collector_submits_in_order_witness :
    (collectorStage demoDecode 15 0 [[], []]).1
        = (List.range 2).map (fun i : Nat => (i, (i : ℚ) / (15 : ℚ))) :=
  (collector_submits_in_order demoDecode 15 [[], []] (by norm_num) (by norm_num)
    (fun _ => ⟨_, rfl⟩)).1

/-! ## Capture loop pacing (`capture_worker`, main.rs lines 497–507) -/

/-- `Duration::from_secs_f64(1.0 / target_fps as f64)`. -/
def frame_interval (fps : Nat) : ℚ := 1 / (fps : ℚ)

/-- The pacing state of the capture loop: `last_frame_time` and the
processor's running frame count. -/
structure PacerState where
  last_frame_time : ℚ
  frame_count : Nat
deriving DecidableEq, Repr

/-- One iteration of the rate-limited capture block:

```rust
let now = Instant::now();
if now.duration_since(last_frame_time) >= frame_interval {
    if let Some(frame) = ctrl.try_get_frame() {
        let _ = proc.process_frame(frame);
        last_frame_time = now;
    }
}
```

`duration_since` saturates at zero for an earlier instant; frame
availability is the `frame_available` parameter. -/
def pacerTick (interval : ℚ) (s : PacerState) (now : ℚ) (frame_available : Bool) :
    PacerState :=
  if interval ≤ max (now - s.last_frame_time) 0 ∧ frame_available = true then
    { last_frame_time := now, frame_count := s.frame_count + 1 }
  else
    s

/-- The capture loop run over a list of `(tick time, frame available)`
pairs. -/
def pacerRun (interval : ℚ) : PacerState → List (ℚ × Bool) → PacerState
  | s, [] => s
  | s, t :: ts => pacerRun interval (pacerTick interval s t.1 t.2) ts

/-- Helper for C9: the pacing invariant — the frame count times the interval
never exceeds the time advanced past `t0`, and the last-frame time stays in
the window. -/
theorem pacerRun_invariant (I t0 T : ℚ) (hI : 0 < I) :
    ∀ (ticks : List (ℚ × Bool)) (s : PacerState),
      (∀ t ∈ ticks, t.1 ≤ t0 + T) →
      (s.frame_count : ℚ) * I ≤ s.last_frame_time - t0 →
      s.last_frame_time ≤ t0 + T →
      ((pacerRun I s ticks).frame_count : ℚ) * I
          ≤ (pacerRun I s ticks).last_frame_time - t0
      ∧ (pacerRun I s ticks).last_frame_time ≤ t0 + T := by
  intro ticks
  induction ticks with
  | nil => intro s _ h1 h2; exact ⟨h1, h2⟩
  | cons t ts ih =>
      intro s hmem h1 h2
      have hthead : t.1 ≤ t0 + T := hmem t (List.mem_cons_self t ts)
      have hmem' : ∀ u ∈ ts, u.1 ≤ t0 + T := fun u hu => hmem u (List.mem_cons_of_mem t hu)
      simp only [pacerRun]
      by_cases hc : I ≤ max (t.1 - s.last_frame_time) 0 ∧ t.2 = true
      · have hnl : I ≤ t.1 - s.last_frame_time := by
          have hle := hc.1
          rcases le_or_lt 0 (t.1 - s.last_frame_time) with h | h
          · rwa [max_eq_left h] at hle
          · rw [max_eq_right h.le] at hle; linarith
        refine ih _ hmem' ?_ ?_
        · unfold pacerTick
          rw [if_pos hc]
          push_cast
          linarith
        · unfold pacerTick
          rw [if_pos hc]
          exact hthead
      · refine ih _ hmem' ?_ ?_
        · unfold pacerTick
          rw [if_neg hc]
          exact h1
        · unfold pacerTick
          rw [if_neg hc]
          exact h2

/--
C9 (confirmed): over any run of the capture loop whose tick times all lie
within a window of length `T ≥ 0` starting at the loop start `t0`, with
pacing interval `1/fps`, the number of frames handed to the frame processor
never exceeds `floor(T / I) + 1` — at most one frame per elapsed pacing
interval, regardless of how often the loop polls or how frames become
available.
-/
theorem capture_pacing_ceiling (fps : Nat) (t0 T : ℚ) (ticks : List (ℚ × Bool))
    (hfps : 1 ≤ fps) (hT : 0 ≤ T)
    (hticks : ∀ t ∈ ticks, t.1 ≤ t0 + T) :
    (pacerRun (frame_interval fps)
        { last_frame_time := t0, frame_count := 0 } ticks).frame_count
      ≤ (⌊T / frame_interval fps⌋).toNat + 1 := by
  have hI : 0 < frame_interval fps := by
    unfold frame_interval
    have h0 : (0 : ℚ) < (fps : ℚ) := by exact_mod_cast hfps
    positivity
  obtain ⟨h1, h2⟩ := pacerRun_invariant (frame_interval fps) t0 T hI ticks
    { last_frame_time := t0, frame_count := 0 } hticks (by simp) (by linarith)
  have hcT : ((pacerRun (frame_interval fps)
      { last_frame_time := t0, frame_count := 0 } ticks).frame_count : ℚ)
        * frame_interval fps ≤ T := by linarith
  have hdiv : ((pacerRun (frame_interval fps)
      { last_frame_time := t0, frame_count := 0 } ticks).frame_count : ℚ)
        ≤ T / frame_interval fps := (le_div_iff₀ hI).mpr hcT
  have hfloor : ((pacerRun (frame_interval fps)
      { last_frame_time := t0, frame_count := 0 } ticks).frame_count : Int)
        ≤ ⌊T / frame_interval fps⌋ := Int.le_floor.mpr (by exact_mod_cast hdiv)
  omega

/-- C9 witness: a single mid-window tick with a frame available, at 15 fps
over a 1-second window. -/
theorem capture_pacing_ceiling_witness :
    (pacerRun (frame_interval 15)
        { last_frame_time := 0, frame_count := 0 } [((1 : ℚ) / 2, true)]).frame_count
      ≤ (⌊(1 : ℚ) / frame_interval 15⌋).toNat + 1 := by
  refine capture_pacing_ceiling 15 0 1 [((1 : ℚ) / 2, true)] (by norm_num) (by norm_num) ?_
  intro t ht
  simp only [List.mem_singleton] at ht
  subst ht
  norm_num
